import Mathlib

/-!
Shallow embedding of the resilient HTTP request-execution core
(package `http` of the stoner repository: `Client`, retry loop `Do`,
`doRequest`, JSON convenience layer, `WithContext`, `RateLimiter`),
together with theorems checking the design document's claims against it.

External collaborators (the Go standard-library transport, `json.Marshal`,
`http.NewRequest`, `io.ReadAll`) are modelled as an explicit environment
`Env`: each is a caller-supplied function that may fail, exactly as the
spec's "excluded, treated as external collaborators" section prescribes.
Go's `float64` arithmetic is idealised as exact rational arithmetic; the
`time.Duration(...)` cast (float-to-int64, truncation toward zero) is
modelled explicitly by `truncQ`.
-/

namespace Stoner

/-- Go conversion of a non-integral numeric value to an integer type:
truncation toward zero.  Used for `int(y)` in `pow` and for the
`time.Duration(...)` cast in `Client.Do`. -/
def truncQ (q : ℚ) : Int :=
  if q < 0 then -⌊-q⌋ else ⌊q⌋

/-- Source `pow(x, y float64) float64`: `result := 1.0; for i := 0; i < int(y); i++ { result *= x }`. -/
def pow (x y : ℚ) : ℚ :=
  (List.range (truncQ y).toNat).foldl (fun result _ => result * x) 1

/-- Source `RetryConfig`.  `Delay` is a `time.Duration`, i.e. an `int64`
count of nanoseconds; `Backoff` is a `float64`, idealised as `ℚ`. -/
structure RetryConfig where
  MaxRetries : Int
  Delay : Int
  Backoff : ℚ
deriving DecidableEq

/-- Source `CircuitBreaker` (configuration only; the source never defines
any dynamic breaker state). -/
structure CircuitBreaker where
  MaxFailures : Int
  Timeout : Int
  ResetTimeout : Int
deriving DecidableEq

/-- The delay computed in `Client.Do` before the next attempt:
`time.Duration(float64(c.retryConfig.Delay) * pow(c.retryConfig.Backoff, float64(attempt)))`. -/
def computeDelay (rc : RetryConfig) (attempt : Nat) : Int :=
  truncQ ((rc.Delay : ℚ) * pow rc.Backoff (attempt : ℚ))

/-- Go `textproto` valid header-field byte (letters, digits, and the
token characters, given here by their ASCII codes). -/
def validHeaderFieldChar (c : Char) : Bool :=
  (97 ≤ c.toNat && c.toNat ≤ 122) || (65 ≤ c.toNat && c.toNat ≤ 90) ||
  (48 ≤ c.toNat && c.toNat ≤ 57) ||
  [33, 35, 36, 37, 38, 39, 42, 43, 45, 46, 94, 95, 96, 124, 126].contains c.toNat

/-- Character-level canonicalisation: uppercase at the start and after a
hyphen (ASCII 45), lowercase elsewhere. -/
def canonicalChars : Bool → List Char → List Char
  | _, [] => []
  | up, c :: rest =>
    (if up then c.toUpper else c.toLower) :: canonicalChars (c.toNat == 45) rest

/-- Go `textproto.CanonicalMIMEHeaderKey`, applied by `http.Header.Set`:
returns the key unchanged if it contains an invalid byte, otherwise
canonicalises its case. -/
def canonicalMIMEHeaderKey (s : String) : String :=
  if s.toList.all validHeaderFieldChar then String.mk (canonicalChars true s.toList) else s

/-- `http.Header`, modelled as an association list from canonical keys to
the (single, most recently `Set`) value. -/
abbrev Header := List (String × String)

/-- `http.Header.Set key value`: store `value` under the canonical form
of `key`, replacing any previous value for that key. -/
def Header.Set (h : Header) (key value : String) : Header :=
  let ck := canonicalMIMEHeaderKey key
  h.filter (fun p => p.1 != ck) ++ [(ck, value)]

/-- `http.Header.Get key`: the value stored under the canonical form of
`key`, if any. -/
def Header.Get (h : Header) (key : String) : Option String :=
  (h.find? (fun p => p.1 == canonicalMIMEHeaderKey key)).map (fun p => p.2)

/-- `for key, value := range m { h.Set(key, value) }` over a header map
`m` (modelled as a list of key/value pairs). -/
def setAll (h0 : Header) (l : List (String × String)) : Header :=
  l.foldl (fun h p => Header.Set h p.1 p.2) h0

/-- The two header-merging loops of `Client.doRequest`: default headers
first, then request-specific headers. -/
def mergeHeaders (defaults reqHeaders : List (String × String)) : Header :=
  setAll (setAll [] defaults) reqHeaders

/-- First value in a raw key/value list whose key canonicalises to `ck`
(the value a case-insensitive lookup in the caller's map would find). -/
def lookupC (l : List (String × String)) (ck : String) : Option String :=
  (l.find? (fun p => canonicalMIMEHeaderKey p.1 == ck)).map (fun p => p.2)

/-- Last value in a raw key/value list whose key canonicalises to `ck`
(the value that survives when the list is written into a header by
successive `Set` calls). -/
def lookupLastC : List (String × String) → String → Option String
  | [], _ => none
  | p :: l, ck =>
    match lookupLastC l ck with
    | some v => some v
    | none => if canonicalMIMEHeaderKey p.1 = ck then some p.2 else none

/-- No two keys of the list canonicalise to the same header key (Go maps
have unique raw keys; this additionally rules out two raw spellings of
one case-insensitive key, whose merged value would depend on Go's
unspecified map iteration order). -/
abbrev nodupC (l : List (String × String)) : Prop :=
  (l.map (fun p => canonicalMIMEHeaderKey p.1)).Nodup

/-- Source `Request`.  The body is `interface{}`; it is modelled by a
type parameter `β`, encoded by the `Env.marshal` collaborator. -/
structure Request (β : Type) where
  Method : String
  URL : String
  Headers : List (String × String)
  Body : Option β
  Query : List (String × String)

/-- Source `Response`. -/
structure Response where
  StatusCode : Int
  Headers : Header
  Body : String
deriving DecidableEq

/-- The `*http.Request` handed to the transport: method, absolute URL,
encoded body bytes, and the headers set by `doRequest`. -/
structure HttpRequest where
  method : String
  url : String
  body : Option String
  header : Header
deriving DecidableEq

/-- What one `httpClient.Do` round trip yields: the status code and
headers, plus the outcome of the subsequent `io.ReadAll(resp.Body)`. -/
structure RawResponse where
  statusCode : Int
  headers : Header
  bodyRead : Except String String

/-- The external collaborators: `json.Marshal`, `http.NewRequest`
validation, and the transport.  The transport is indexed by the number of
transport invocations already performed, so distinct attempts may observe
distinct network outcomes. -/
structure Env (β : Type) where
  marshal : β → Except String String
  createRequest : String → String → Except String Unit
  transport : Nat → HttpRequest → Except String RawResponse

/-- Source `Client`.  `timeout` is `httpClient.Timeout` in nanoseconds. -/
structure Client (β : Type) where
  timeout : Int
  baseURL : String
  defaultHeaders : List (String × String)
  retryConfig : RetryConfig
  circuitBreaker : CircuitBreaker

/-- Source `NewClient`. -/
def NewClient (baseURL : String) : Client β where
  timeout := 30000000000
  baseURL := baseURL
  defaultHeaders := []
  retryConfig := { MaxRetries := 3, Delay := 1000000000, Backoff := 2 }
  circuitBreaker := { MaxFailures := 5, Timeout := 30000000000, ResetTimeout := 60000000000 }

/-- The error values the source can return, one constructor per
`fmt.Errorf` site.  `wrapAttempts` is `"request failed after %d attempts: %w"`
(Do), `wrapMarshal` is `"failed to marshal body: %w"`, `wrapCreate` is
`"failed to create request: %w"`, `wrapTransport` is `"request failed: %w"`,
`wrapReadBody` is `"failed to read response body: %w"`, `httpError` is
`"HTTP error: %d"` (JSON layer); `errorString` is an opaque error from a
collaborator, and `nilDeref` marks the run-time fault Go would hit on a
nil-pointer dereference. -/
inductive GoError where
  | errorString (msg : String)
  | wrapMarshal (inner : GoError)
  | wrapCreate (inner : GoError)
  | wrapTransport (inner : GoError)
  | wrapReadBody (inner : GoError)
  | wrapAttempts (attempts : Int) (inner : Option GoError)
  | httpError (status : Int)
  | nilDeref

/-- The headers carried by the outgoing request in `doRequest` (and in
`WithContext`, which duplicates the same lines): defaults, then request
headers, then — whenever a body is present — `Content-Type` is `Set` to
`application/json`. -/
def outgoingHeaders (c : Client β) (req : Request β) : Header :=
  let merged := mergeHeaders c.defaultHeaders req.Headers
  if req.Body.isSome then Header.Set merged "Content-Type" "application/json" else merged

/-- Result of a single attempt (`doRequest`): the `(*Response, error)`
pair as the Go function returns it, plus the number of transport
invocations the attempt performed (0 or 1). -/
structure AttemptOut where
  response : Option Response
  error : Option GoError
  transportCalls : Nat

/-- Source `Client.doRequest`, with `k` the index of the next transport
invocation. -/
def Client.doRequest (c : Client β) (env : Env β) (req : Request β) (k : Nat) : AttemptOut :=
  let url := c.baseURL ++ req.URL
  let bodyReader : Except GoError (Option String) :=
    match req.Body with
    | none => .ok none
    | some b =>
      match env.marshal b with
      | .error msg => .error (.wrapMarshal (.errorString msg))
      | .ok bodyBytes => .ok (some bodyBytes)
  match bodyReader with
  | .error e => ⟨none, some e, 0⟩
  | .ok bodyOpt =>
    match env.createRequest req.Method url with
    | .error msg => ⟨none, some (.wrapCreate (.errorString msg)), 0⟩
    | .ok _ =>
      let httpReq : HttpRequest := ⟨req.Method, url, bodyOpt, outgoingHeaders c req⟩
      match env.transport k httpReq with
      | .error msg => ⟨none, some (.wrapTransport (.errorString msg)), 1⟩
      | .ok raw =>
        match raw.bodyRead with
        | .error msg => ⟨none, some (.wrapReadBody (.errorString msg)), 1⟩
        | .ok body => ⟨some ⟨raw.statusCode, raw.headers, body⟩, none, 1⟩

/-- Result of `Client.Do`: the `(*Response, error)` pair, the total
number of transport invocations, and the list of delays (whole
nanoseconds) passed to `time.Sleep`, in order. -/
structure DoOutcome where
  response : Option Response
  error : Option GoError
  transportCalls : Nat
  sleeps : List Int

/-- The retry loop of `Client.Do`, recursing on the number of loop
iterations still permitted (`remaining = MaxRetries + 1 - attempt`; the
Go guard `attempt == MaxRetries` — break without sleeping — is exactly
`remaining` reaching 1, i.e. `r = 0` below). -/
def Client.doLoop (c : Client β) (env : Env β) (req : Request β) :
    Nat → Nat → Option GoError → Nat → List Int → DoOutcome
  | _attempt, 0, lastErr, calls, sleeps =>
    ⟨none, some (.wrapAttempts (c.retryConfig.MaxRetries + 1) lastErr), calls, sleeps⟩
  | attempt, r + 1, _lastErr, calls, sleeps =>
    let a := c.doRequest env req calls
    match a.error with
    | none => ⟨a.response, none, calls + a.transportCalls, sleeps⟩
    | some e =>
      c.doLoop env req (attempt + 1) r (some e) (calls + a.transportCalls)
        (if r = 0 then sleeps else sleeps ++ [computeDelay c.retryConfig attempt])

/-- Source `Client.Do`: `for attempt := 0; attempt <= MaxRetries; attempt++`,
so `(MaxRetries + 1).toNat` iterations in total. -/
def Client.Do (c : Client β) (env : Env β) (req : Request β) : DoOutcome :=
  c.doLoop env req 0 (c.retryConfig.MaxRetries + 1).toNat none 0 []

/-- Source `Client.Get`. -/
def Client.Get (c : Client β) (env : Env β) (url : String)
    (headers : List (String × String)) : DoOutcome :=
  c.Do env { Method := "GET", URL := url, Headers := headers, Body := none, Query := [] }

/-- Source `Client.Post`. -/
def Client.Post (c : Client β) (env : Env β) (url : String) (body : β)
    (headers : List (String × String)) : DoOutcome :=
  c.Do env { Method := "POST", URL := url, Headers := headers, Body := some body, Query := [] }

/-- Source `Client.Put`. -/
def Client.Put (c : Client β) (env : Env β) (url : String) (body : β)
    (headers : List (String × String)) : DoOutcome :=
  c.Do env { Method := "PUT", URL := url, Headers := headers, Body := some body, Query := [] }

/-- Source `Client.Delete`. -/
def Client.Delete (c : Client β) (env : Env β) (url : String)
    (headers : List (String × String)) : DoOutcome :=
  c.Do env { Method := "DELETE", URL := url, Headers := headers, Body := none, Query := [] }

/-- Result of the JSON convenience layer: the returned error, the value
stored into the caller-supplied destination (if any), whether
`json.Unmarshal` was invoked at all, and the transport-invocation count
of the underlying `Do`. -/
structure JSONOutcome (δ : Type) where
  error : Option GoError
  decoded : Option δ
  decodeCalled : Bool
  transportCalls : Nat

/-- Source `Client.JSON`, with `um` the `json.Unmarshal` collaborator for
the caller's destination type `δ`.  The `nilDeref` branch is the
nil-pointer dereference Go would hit if `Do` ever returned a nil response
together with a nil error (proved unreachable in the claims below). -/
def Client.JSON (c : Client β) (env : Env β) (um : String → Except String δ)
    (req : Request β) : JSONOutcome δ :=
  let out := c.Do env req
  match out.error with
  | some e => ⟨some e, none, false, out.transportCalls⟩
  | none =>
    match out.response with
    | none => ⟨some .nilDeref, none, false, out.transportCalls⟩
    | some resp =>
      if 400 ≤ resp.StatusCode then
        ⟨some (.httpError resp.StatusCode), none, false, out.transportCalls⟩
      else
        match um resp.Body with
        | .error msg => ⟨some (.errorString msg), none, true, out.transportCalls⟩
        | .ok v => ⟨none, some v, true, out.transportCalls⟩

/-- Source `Client.GetJSON`. -/
def Client.GetJSON (c : Client β) (env : Env β) (um : String → Except String δ)
    (url : String) (headers : List (String × String)) : JSONOutcome δ :=
  c.JSON env um { Method := "GET", URL := url, Headers := headers, Body := none, Query := [] }

/-- Source `Client.PostJSON`. -/
def Client.PostJSON (c : Client β) (env : Env β) (um : String → Except String δ)
    (url : String) (body : β) (headers : List (String × String)) : JSONOutcome δ :=
  c.JSON env um { Method := "POST", URL := url, Headers := headers, Body := some body, Query := [] }

/-- Source `Client.PutJSON`. -/
def Client.PutJSON (c : Client β) (env : Env β) (um : String → Except String δ)
    (url : String) (body : β) (headers : List (String × String)) : JSONOutcome δ :=
  c.JSON env um { Method := "PUT", URL := url, Headers := headers, Body := some body, Query := [] }

/-- Source `Client.DeleteJSON`. -/
def Client.DeleteJSON (c : Client β) (env : Env β) (um : String → Except String δ)
    (url : String) (headers : List (String × String)) : JSONOutcome δ :=
  c.JSON env um { Method := "DELETE", URL := url, Headers := headers, Body := none, Query := [] }

/-- Source `Client.WithContext`: a single inline attempt (no loop, no
`time.Sleep`).  The client copy with a fresh `http.Client` of the same
`Timeout` has no observable effect in this model; the context is carried
by the collaborators. -/
def Client.WithContext (c : Client β) (env : Env β) (req : Request β) : DoOutcome :=
  let url := c.baseURL ++ req.URL
  let bodyReader : Except GoError (Option String) :=
    match req.Body with
    | none => .ok none
    | some b =>
      match env.marshal b with
      | .error msg => .error (.wrapMarshal (.errorString msg))
      | .ok bodyBytes => .ok (some bodyBytes)
  match bodyReader with
  | .error e => ⟨none, some e, 0, []⟩
  | .ok bodyOpt =>
    match env.createRequest req.Method url with
    | .error msg => ⟨none, some (.wrapCreate (.errorString msg)), 0, []⟩
    | .ok _ =>
      let httpReq : HttpRequest := ⟨req.Method, url, bodyOpt, outgoingHeaders c req⟩
      match env.transport 0 httpReq with
      | .error msg => ⟨none, some (.wrapTransport (.errorString msg)), 1, []⟩
      | .ok raw =>
        match raw.bodyRead with
        | .error msg => ⟨none, some (.wrapReadBody (.errorString msg)), 1, []⟩
        | .ok body => ⟨some ⟨raw.statusCode, raw.headers, body⟩, none, 1, []⟩

/-- Source `NewRateLimiter`: the number of tokens in the buffered channel
after the fill loop `for i := 0; i < burst; i++ { rl.requests <- ... }`. -/
def NewRateLimiter (burst : Nat) : Nat :=
  (List.range burst).foldl (fun n _ => n + 1) 0

/-- One step of the rate-limiter state (the number of tokens buffered in
`rl.requests`, a channel of capacity `B`): `Wait` receives one token
(both `select` branches are receives, so it blocks rather than go below
zero), and the detached replenishment goroutine sends one token (a send
on a full channel blocks, so the count cannot exceed the capacity `B`). -/
inductive RLStep (B : Nat) : Nat → Nat → Prop where
  | acquire (n : Nat) : RLStep B (n + 1) n
  | replenish (n : Nat) (h : n < B) : RLStep B n (n + 1)

/-- States of the token pool reachable from the freshly constructed
limiter under any interleaving of acquisitions and replenishments. -/
inductive RLReachable (B : Nat) : Nat → Prop where
  | init : RLReachable B (NewRateLimiter B)
  | step {n m : Nat} : RLReachable B n → RLStep B n m → RLReachable B m

/-! ### Concrete instances used by witnesses and counterexamples -/

/-- `NewClient("")`, the default configuration (`MaxRetries = 3`). -/
def clientW : Client Unit := NewClient ""

/-- Scenario-A client: `SetCircuitBreaker(&CircuitBreaker{MaxFailures: 3, ...})`. -/
def clientCB : Client Unit :=
  { clientW with circuitBreaker := { MaxFailures := 3, Timeout := 30000000000, ResetTimeout := 60000000000 } }

/-- Client with `MaxRetries = 2`, `Delay = 1ns`, `Backoff = 1.5`. -/
def clientB15 : Client Unit :=
  { clientW with retryConfig := { MaxRetries := 2, Delay := 1, Backoff := 3/2 } }

/-- Environment whose transport fails on every invocation. -/
def envFail : Env Unit :=
  ⟨fun _ => .ok "", fun _ _ => .ok (), fun _ _ => .error "connection refused"⟩

/-- Environment whose body encoder (`json.Marshal`) always fails. -/
def envMarshalFail : Env Unit :=
  ⟨fun _ => .error "bad", fun _ _ => .ok (), fun _ _ => .error "unreachable"⟩

/-- Environment whose transport succeeds with a 404 response. -/
def env404 : Env Unit :=
  ⟨fun _ => .ok "", fun _ _ => .ok (), fun _ _ => .ok ⟨404, [], .ok "nf"⟩⟩

/-- Environment whose transport succeeds with a 200 response. -/
def env200 : Env Unit :=
  ⟨fun _ => .ok "", fun _ _ => .ok (), fun _ _ => .ok ⟨200, [], .ok "payload"⟩⟩

/-- A body-less GET request. -/
def reqGet : Request Unit := ⟨"GET", "/", [], none, []⟩

/-- A POST request with a body and a caller-supplied `Content-Type`. -/
def reqPostCT : Request Unit := ⟨"POST", "/x", [("Content-Type", "text/xml")], some (), []⟩

/-- Client with one default header. -/
def clientAcc : Client Unit := { clientW with defaultHeaders := [("Accept", "x")] }

/-- A POST request (with body) carrying a caller `Content-Type`. -/
def reqPostCT2 : Request Unit := ⟨"POST", "/y", [("Content-Type", "text/plain")], some (), []⟩

/-- A body-less request carrying a caller `Content-Type`. -/
def reqGetCT : Request Unit := ⟨"GET", "/y", [("Content-Type", "text/plain")], none, []⟩

/-! ### Arithmetic lemmas about the delay computation -/

theorem truncQ_ofNonneg (q : ℚ) (h : 0 ≤ q) : truncQ q = ⌊q⌋ := by
  unfold truncQ
  rw [if_neg (not_lt.2 h)]

theorem truncQ_natCast (n : ℕ) : truncQ (n : ℚ) = n := by
  rw [truncQ_ofNonneg _ (by positivity), Int.floor_natCast]

theorem truncQ_intCast (z : ℤ) : truncQ (z : ℚ) = z := by
  unfold truncQ
  rcases lt_or_le (z : ℚ) 0 with h | h
  · rw [if_pos h, ← Int.cast_neg, Int.floor_intCast, neg_neg]
  · rw [if_neg (not_lt.2 h), Int.floor_intCast]

theorem foldl_mul_range (x : ℚ) :
    ∀ (n : ℕ) (a : ℚ), (List.range n).foldl (fun r _ => r * x) a = a * x ^ n := by
  intro n
  induction n with
  | zero => intro a; simp
  | succ n ih =>
    intro a
    rw [List.range_succ, List.foldl_append, ih, pow_succ]
    simp [mul_assoc]

theorem pow_eq_npow (x : ℚ) (n : ℕ) : pow x (n : ℚ) = x ^ n := by
  unfold pow
  rw [truncQ_natCast, Int.toNat_natCast, foldl_mul_range, one_mul]

theorem computeDelay_eq (rc : RetryConfig) (i : ℕ) :
    computeDelay rc i = truncQ ((rc.Delay : ℚ) * rc.Backoff ^ i) := by
  unfold computeDelay
  rw [pow_eq_npow]

theorem computeDelay_mono (rc : RetryConfig) (i : ℕ)
    (hd : 0 ≤ rc.Delay) (hb : 1 ≤ rc.Backoff) :
    computeDelay rc i ≤ computeDelay rc (i + 1) := by
  rw [computeDelay_eq, computeDelay_eq]
  have hb0 : (0 : ℚ) ≤ rc.Backoff := le_trans zero_le_one hb
  have hd0 : (0 : ℚ) ≤ (rc.Delay : ℚ) := by exact_mod_cast hd
  have hple : (rc.Delay : ℚ) * rc.Backoff ^ i ≤ (rc.Delay : ℚ) * rc.Backoff ^ (i + 1) := by
    refine mul_le_mul_of_nonneg_left ?_ hd0
    rw [pow_succ]
    exact le_mul_of_one_le_right (pow_nonneg hb0 i) hb
  rw [truncQ_ofNonneg _ (mul_nonneg hd0 (pow_nonneg hb0 i)),
    truncQ_ofNonneg _ (mul_nonneg hd0 (pow_nonneg hb0 (i + 1)))]
  exact Int.floor_le_floor hple

/-! ### Lemmas about header construction -/

theorem find?_filter_ne (t : List (String × String)) (ck dk : String) (hne : dk ≠ ck) :
    (t.filter (fun p => p.1 != ck)).find? (fun p => p.1 == dk) =
      t.find? (fun p => p.1 == dk) := by
  induction t with
  | nil => rfl
  | cons p t ih =>
    by_cases hp : p.1 = ck
    · have h1 : (p.1 != ck) = false := by simp [hp]
      have h2 : (p.1 == dk) = false := by simp [hp, Ne.symm hne]
      simp [List.filter_cons, List.find?_cons, h1, h2, ih]
    · have h1 : (p.1 != ck) = true := by simp [hp]
      by_cases hd : p.1 = dk
      · have h2 : (p.1 == dk) = true := by simp [hd]
        simp [List.filter_cons, List.find?_cons, h1, h2]
      · have h2 : (p.1 == dk) = false := by simp [hd]
        simp [List.filter_cons, List.find?_cons, h1, h2, ih]

theorem find?_filter_self (t : List (String × String)) (ck : String) :
    (t.filter (fun p => p.1 != ck)).find? (fun p => p.1 == ck) = none := by
  rw [List.find?_eq_none]
  intro p hp
  have := (List.mem_filter.mp hp).2
  simp only [bne_iff_ne, ne_eq, decide_eq_true_eq] at this
  simp [this]

theorem Header.Get_Set (h : Header) (k v k' : String) :
    Header.Get (Header.Set h k v) k' =
      if canonicalMIMEHeaderKey k' = canonicalMIMEHeaderKey k then some v
      else Header.Get h k' := by
  unfold Header.Set Header.Get
  dsimp only
  rw [List.find?_append]
  by_cases hck : canonicalMIMEHeaderKey k' = canonicalMIMEHeaderKey k
  · rw [if_pos hck, hck, find?_filter_self]
    simp [List.find?_cons]
  · rw [if_neg hck, find?_filter_ne _ _ _ hck]
    have : ((canonicalMIMEHeaderKey k, v).1 == canonicalMIMEHeaderKey k') = false := by
      simp [Ne.symm hck]
    cases hf : List.find? (fun p => p.1 == canonicalMIMEHeaderKey k') h with
    | none => simp [hf, List.find?_cons, this]
    | some q => simp [hf]

theorem Get_setAll (l : List (String × String)) :
    ∀ (h0 : Header) (k : String),
    Header.Get (setAll h0 l) k =
      (match lookupLastC l (canonicalMIMEHeaderKey k) with
       | some v => some v
       | none => Header.Get h0 k) := by
  induction l with
  | nil => intro h0 k; rfl
  | cons p t ih =>
    intro h0 k
    rw [show setAll h0 (p :: t) = setAll (Header.Set h0 p.1 p.2) t from rfl, ih]
    cases hl : lookupLastC t (canonicalMIMEHeaderKey k) with
    | some v => simp [lookupLastC, hl]
    | none =>
      simp only [lookupLastC, hl]
      rw [Header.Get_Set]
      by_cases hp : canonicalMIMEHeaderKey k = canonicalMIMEHeaderKey p.1
      · rw [if_pos hp, if_pos hp.symm]
      · rw [if_neg hp, if_neg (Ne.symm hp)]

theorem lookupLastC_eq_none (l : List (String × String)) (ck : String)
    (h : ∀ p ∈ l, canonicalMIMEHeaderKey p.1 ≠ ck) : lookupLastC l ck = none := by
  induction l with
  | nil => rfl
  | cons p t ih =>
    simp only [lookupLastC, ih (fun q hq => h q (List.mem_cons_of_mem p hq)),
      if_neg (h p (List.mem_cons_self p t))]

theorem lookupLastC_eq_lookupC (l : List (String × String)) (ck : String) (h : nodupC l) :
    lookupLastC l ck = lookupC l ck := by
  induction l with
  | nil => rfl
  | cons p t ih =>
    have hnd := List.nodup_cons.mp h
    by_cases hp : canonicalMIMEHeaderKey p.1 = ck
    · have ht : lookupLastC t ck = none := by
        refine lookupLastC_eq_none t ck (fun q hq hcq => hnd.1 ?_)
        show canonicalMIMEHeaderKey p.1 ∈ List.map (fun r => canonicalMIMEHeaderKey r.1) t
        rw [hp, ← hcq]
        exact List.mem_map_of_mem _ hq
      have hb : (canonicalMIMEHeaderKey p.1 == ck) = true := by simp [hp]
      simp [lookupLastC, ht, hp, lookupC, List.find?_cons, hb]
    · have hb : (canonicalMIMEHeaderKey p.1 == ck) = false := by simp [hp]
      simp only [lookupLastC, ih hnd.2, lookupC, List.find?_cons, hb, cond_false]
      cases hf : List.find? (fun q => canonicalMIMEHeaderKey q.1 == ck) t with
      | none => simp [hf, hp]
      | some q => simp [hf]

theorem Get_mergeHeaders (defaults reqH : List (String × String)) (k : String)
    (hd : nodupC defaults) (hr : nodupC reqH) :
    Header.Get (mergeHeaders defaults reqH) k =
      (match lookupC reqH (canonicalMIMEHeaderKey k) with
       | some v => some v
       | none => lookupC defaults (canonicalMIMEHeaderKey k)) := by
  unfold mergeHeaders
  rw [Get_setAll, lookupLastC_eq_lookupC _ _ hr]
  cases hl : lookupC reqH (canonicalMIMEHeaderKey k) with
  | some v => rfl
  | none =>
    dsimp only
    rw [Get_setAll, lookupLastC_eq_lookupC _ _ hd]
    cases lookupC defaults (canonicalMIMEHeaderKey k) <;> rfl

/-! ### Lemmas about single attempts (`doRequest`) -/

theorem doRequest_marshalFail {β : Type} (c : Client β) (env : Env β) (req : Request β)
    (b : β) (msg : String) (hb : req.Body = some b) (hm : env.marshal b = .error msg) (k : Nat) :
    c.doRequest env req k = ⟨none, some (.wrapMarshal (.errorString msg)), 0⟩ := by
  unfold Client.doRequest
  simp [hb, hm]

theorem doRequest_transportFail {β : Type} (c : Client β) (env : Env β) (req : Request β)
    (msg : String) (k : Nat)
    (hbody : ∀ b, req.Body = some b → ∃ s, env.marshal b = .ok s)
    (hcreate : env.createRequest req.Method (c.baseURL ++ req.URL) = .ok ())
    (hfail : ∀ r, env.transport k r = .error msg) :
    c.doRequest env req k = ⟨none, some (.wrapTransport (.errorString msg)), 1⟩ := by
  unfold Client.doRequest
  cases hb : req.Body with
  | none => simp [hb, hcreate, hfail]
  | some b =>
    obtain ⟨s, hs⟩ := hbody b hb
    simp [hb, hs, hcreate, hfail]

theorem doRequest_success {β : Type} (c : Client β) (env : Env β) (req : Request β)
    (raw : RawResponse) (body : String) (k : Nat)
    (hbody : ∀ b, req.Body = some b → ∃ s, env.marshal b = .ok s)
    (hcreate : env.createRequest req.Method (c.baseURL ++ req.URL) = .ok ())
    (htr : ∀ r, env.transport k r = .ok raw)
    (hread : raw.bodyRead = .ok body) :
    c.doRequest env req k = ⟨some ⟨raw.statusCode, raw.headers, body⟩, none, 1⟩ := by
  unfold Client.doRequest
  cases hb : req.Body with
  | none => simp [hb, hcreate, htr, hread]
  | some b =>
    obtain ⟨s, hs⟩ := hbody b hb
    simp [hb, hs, hcreate, htr, hread]

theorem doRequest_createFail {β : Type} (c : Client β) (env : Env β) (req : Request β)
    (msg : String) (k : Nat)
    (hbody : ∀ b, req.Body = some b → ∃ s, env.marshal b = .ok s)
    (hcreate : env.createRequest req.Method (c.baseURL ++ req.URL) = .error msg) :
    c.doRequest env req k = ⟨none, some (.wrapCreate (.errorString msg)), 0⟩ := by
  unfold Client.doRequest
  cases hb : req.Body with
  | none => simp [hb, hcreate]
  | some b =>
    obtain ⟨s, hs⟩ := hbody b hb
    simp [hb, hs, hcreate]

theorem doRequest_xor {β : Type} (c : Client β) (env : Env β) (req : Request β) (k : Nat) :
    (c.doRequest env req k).response.isSome = (c.doRequest env req k).error.isNone := by
  unfold Client.doRequest
  dsimp only
  repeat' split <;> try rfl

/-! ### Lemmas about the retry loop (`doLoop`) -/

theorem doLoop_zero {β : Type} (c : Client β) (env : Env β) (req : Request β)
    (attempt : Nat) (lastErr : Option GoError) (calls : Nat) (sleeps : List Int) :
    c.doLoop env req attempt 0 lastErr calls sleeps =
      ⟨none, some (.wrapAttempts (c.retryConfig.MaxRetries + 1) lastErr), calls, sleeps⟩ :=
  rfl

theorem doLoop_succ {β : Type} (c : Client β) (env : Env β) (req : Request β)
    (attempt r : Nat) (lastErr : Option GoError) (calls : Nat) (sleeps : List Int) :
    c.doLoop env req attempt (r + 1) lastErr calls sleeps =
      (match (c.doRequest env req calls).error with
      | none =>
        ⟨(c.doRequest env req calls).response, none,
         calls + (c.doRequest env req calls).transportCalls, sleeps⟩
      | some e =>
        c.doLoop env req (attempt + 1) r (some e)
          (calls + (c.doRequest env req calls).transportCalls)
          (if r = 0 then sleeps else sleeps ++ [computeDelay c.retryConfig attempt])) :=
  rfl

theorem doLoop_constFail {β : Type} (c : Client β) (env : Env β) (req : Request β)
    (e : Nat → GoError) (t : Nat)
    (h : ∀ k, c.doRequest env req k = ⟨none, some (e k), t⟩) :
    ∀ (r attempt calls : Nat) (lastErr : Option GoError) (sleeps : List Int),
    c.doLoop env req attempt (r + 1) lastErr calls sleeps =
      ⟨none, some (.wrapAttempts (c.retryConfig.MaxRetries + 1) (some (e (calls + r * t)))),
       calls + (r + 1) * t,
       sleeps ++ (List.range r).map (fun j => computeDelay c.retryConfig (attempt + j))⟩ := by
  intro r
  induction r with
  | zero =>
    intro attempt calls lastErr sleeps
    rw [doLoop_succ, h calls]
    simp [doLoop_zero]
  | succ r ih =>
    intro attempt calls lastErr sleeps
    rw [doLoop_succ, h calls]
    dsimp only
    rw [if_neg (Nat.succ_ne_zero r)]
    rw [ih (attempt + 1) (calls + t)]
    have h1 : calls + t + r * t = calls + (r + 1) * t := by ring
    have h2 : calls + t + (r + 1) * t = calls + (r + 1 + 1) * t := by ring
    rw [h1, h2, List.range_succ_eq_map]
    simp only [List.map_cons, List.map_map, Nat.add_zero, List.append_assoc,
      List.singleton_append]
    have h4 : (fun j => computeDelay c.retryConfig (attempt + j)) ∘ Nat.succ =
        fun j => computeDelay c.retryConfig (attempt + 1 + j) := by
      funext j
      simp only [Function.comp]
      congr 1
      omega
    rw [h4]

theorem doLoop_firstSuccess {β : Type} (c : Client β) (env : Env β) (req : Request β)
    (s : Nat) (resp : Response) (e : Nat → GoError)
    (hfail : ∀ k, k < s → c.doRequest env req k = ⟨none, some (e k), 1⟩)
    (hsucc : c.doRequest env req s = ⟨some resp, none, 1⟩) :
    ∀ (remaining attempt calls : Nat) (lastErr : Option GoError) (sleeps : List Int),
    calls ≤ s → s - calls < remaining →
    (c.doLoop env req attempt remaining lastErr calls sleeps).response = some resp ∧
    (c.doLoop env req attempt remaining lastErr calls sleeps).error = none ∧
    (c.doLoop env req attempt remaining lastErr calls sleeps).transportCalls = s + 1 := by
  intro remaining
  induction remaining with
  | zero =>
    intro attempt calls lastErr sleeps hle hrem
    omega
  | succ r ih =>
    intro attempt calls lastErr sleeps hle hrem
    rcases eq_or_lt_of_le hle with heq | hlt
    · subst heq
      rw [doLoop_succ, hsucc]
      exact ⟨rfl, rfl, rfl⟩
    · rw [doLoop_succ, hfail calls hlt]
      dsimp only
      exact ih (attempt + 1) (calls + 1) (some (e calls)) _ (by omega) (by omega)

theorem doLoop_xor {β : Type} (c : Client β) (env : Env β) (req : Request β) :
    ∀ (remaining attempt calls : Nat) (lastErr : Option GoError) (sleeps : List Int),
    (c.doLoop env req attempt remaining lastErr calls sleeps).response.isSome =
      (c.doLoop env req attempt remaining lastErr calls sleeps).error.isNone := by
  intro remaining
  induction remaining with
  | zero =>
    intro attempt calls lastErr sleeps
    rw [doLoop_zero]
    rfl
  | succ r ih =>
    intro attempt calls lastErr sleeps
    rw [doLoop_succ]
    cases he : (c.doRequest env req calls).error with
    | none =>
      have := doRequest_xor c env req calls
      rw [he] at this
      dsimp only
      exact this
    | some e =>
      dsimp only
      exact ih (attempt + 1) (calls + (c.doRequest env req calls).transportCalls) (some e) _

/-! ### Claim theorems -/

/-- C1: the claim says every `Execute`/`Do` attempt first asks the
CircuitBreaker `Allow()` and that, after `MaxFailures = 3` consecutive
transport failures, the 4th call short-circuits with a breaker-open error
and no transport invocation.  The code stores the `CircuitBreaker`
configuration but never reads it in the request path: with
`MaxFailures = 3` and a permanently failing transport, the 4th `Do` call
(`Do` keeps no breaker state, so every call behaves alike) still performs
`MaxRetries + 1 = 4` transport invocations and returns the
retry-exhaustion wrapper, and the outcome of `Do` is invariant under
arbitrary changes to the `circuitBreaker` field. -/
theorem C1_breakerNeverConsulted :
    ((clientCB.Do envFail reqGet).transportCalls = 4 ∧
     (clientCB.Do envFail reqGet).response = none ∧
     (clientCB.Do envFail reqGet).error =
       some (.wrapAttempts 4 (some (.wrapTransport (.errorString "connection refused"))))) ∧
    ∀ cb : CircuitBreaker,
      ({ clientCB with circuitBreaker := cb } : Client Unit).Do envFail reqGet =
        clientCB.Do envFail reqGet :=
  ⟨⟨rfl, rfl, rfl⟩, fun _ => rfl⟩

/-- C2: with `MaxRetries = n ≥ 0` and a transport failing on every
invocation (the request itself building successfully), `Do` performs
exactly `n + 1` transport invocations and returns the
`"request failed after %d attempts"` wrapper around the last transport
error, carrying attempt count `n + 1`. -/
theorem C2_retryExhaustion {β : Type} (c : Client β) (env : Env β) (req : Request β)
    (n : Nat) (msgs : Nat → String)
    (hn : c.retryConfig.MaxRetries = (n : Int))
    (hmarshal : ∀ b, req.Body = some b → ∃ s, env.marshal b = Except.ok s)
    (hcreate : env.createRequest req.Method (c.baseURL ++ req.URL) = Except.ok ())
    (hfail : ∀ k r, env.transport k r = Except.error (msgs k)) :
    (c.Do env req).transportCalls = n + 1 ∧
    (c.Do env req).response = none ∧
    (c.Do env req).error =
      some (.wrapAttempts ((n : Int) + 1) (some (.wrapTransport (.errorString (msgs n))))) := by
  have hreq : ∀ k, c.doRequest env req k =
      ⟨none, some (.wrapTransport (.errorString (msgs k))), 1⟩ :=
    fun k => doRequest_transportFail c env req (msgs k) k hmarshal hcreate (fun r => hfail k r)
  have htn : (c.retryConfig.MaxRetries + 1).toNat = n + 1 := by
    rw [hn]; omega
  unfold Client.Do
  rw [htn, doLoop_constFail c env req (fun k => .wrapTransport (.errorString (msgs k))) 1 hreq
    n 0 0 none []]
  refine ⟨by simp, rfl, by simp [hn]⟩

/-- Witness for C2: `NewClient` defaults (`MaxRetries = 3`) and an
always-failing transport give 4 transport invocations and no response. -/
theorem C2_witness :
    clientW.retryConfig.MaxRetries = ((3 : Nat) : Int) ∧
    (clientW.Do envFail reqGet).transportCalls = 3 + 1 ∧
    (clientW.Do envFail reqGet).response = none := by
  have h := C2_retryExhaustion clientW envFail reqGet 3 (fun _ => "connection refused")
    rfl (fun b hb => by simp [reqGet] at hb) rfl (fun k r => rfl)
  exact ⟨rfl, h.1, h.2.1⟩

/-- C4 counterexample: the claim says a request whose construction fails
(here: the body encoder rejects the body) is surfaced immediately — one
build attempt, no retry delay, error returned at once.  With the default
`MaxRetries = 3`, the code instead makes 4 build attempts, sleeps 3
backoff delays, and returns the build error wrapped in the
`"request failed after 4 attempts"` retry-exhaustion envelope. -/
theorem C4_cex :
    (clientW.Do envMarshalFail reqPostCT).sleeps.length = 3 ∧
    (clientW.Do envMarshalFail reqPostCT).transportCalls = 0 ∧
    (clientW.Do envMarshalFail reqPostCT).error =
      some (.wrapAttempts 4 (some (.wrapMarshal (.errorString "bad")))) := by
  refine ⟨?_, rfl, rfl⟩
  with_unfolding_all rfl

/-- `Do` when every attempt fails during request construction with the
same build error `be` (no transport invocation per attempt). -/
theorem Do_constBuildFail {β : Type} (c : Client β) (env : Env β) (req : Request β)
    (n : Nat) (be : GoError)
    (hn : c.retryConfig.MaxRetries = (n : Int))
    (hreq : ∀ k, c.doRequest env req k = ⟨none, some be, 0⟩) :
    (c.Do env req).transportCalls = 0 ∧
    (c.Do env req).response = none ∧
    (c.Do env req).error = some (.wrapAttempts ((n : Int) + 1) (some be)) ∧
    (c.Do env req).sleeps = (List.range n).map (computeDelay c.retryConfig) := by
  have htn : (c.retryConfig.MaxRetries + 1).toNat = n + 1 := by
    rw [hn]; omega
  unfold Client.Do
  rw [htn, doLoop_constFail c env req (fun _ => be) 0 hreq n 0 0 none []]
  refine ⟨by simp, rfl, by simp [hn], by simp⟩

/-- C4 (amended): a request whose construction fails — the body encoder
rejects the body, or request creation itself fails — is retried exactly
like a transport failure: `Do` makes `MaxRetries + 1` build attempts,
performs no transport invocation, waits the backoff delay after every
failed attempt but the last, and returns the retry-exhaustion wrapper
around the (last) build error rather than surfacing it at once. -/
theorem C4_buildErrorRetried {β : Type} (c : Client β) (env : Env β) (req : Request β)
    (n : Nat) (hn : c.retryConfig.MaxRetries = (n : Int)) :
    (∀ b msg, req.Body = some b → env.marshal b = Except.error msg →
      (c.Do env req).transportCalls = 0 ∧
      (c.Do env req).response = none ∧
      (c.Do env req).error =
        some (.wrapAttempts ((n : Int) + 1) (some (.wrapMarshal (.errorString msg)))) ∧
      (c.Do env req).sleeps = (List.range n).map (computeDelay c.retryConfig)) ∧
    (∀ msg, (∀ b, req.Body = some b → ∃ s, env.marshal b = Except.ok s) →
      env.createRequest req.Method (c.baseURL ++ req.URL) = Except.error msg →
      (c.Do env req).transportCalls = 0 ∧
      (c.Do env req).response = none ∧
      (c.Do env req).error =
        some (.wrapAttempts ((n : Int) + 1) (some (.wrapCreate (.errorString msg)))) ∧
      (c.Do env req).sleeps = (List.range n).map (computeDelay c.retryConfig)) := by
  constructor
  · intro b msg hb hm
    exact Do_constBuildFail c env req n _ hn
      (fun k => doRequest_marshalFail c env req b msg hb hm k)
  · intro msg hbody hcreate
    exact Do_constBuildFail c env req n _ hn
      (fun k => doRequest_createFail c env req msg k hbody hcreate)

/-- Witness for C4 (amended): the marshal-failing environment at the
default client, `n = 3`. -/
theorem C4_witness :
    reqPostCT.Body = some () ∧
    (clientW.Do envMarshalFail reqPostCT).transportCalls = 0 ∧
    (clientW.Do envMarshalFail reqPostCT).sleeps =
      (List.range 3).map (computeDelay clientW.retryConfig) := by
  have h := (C4_buildErrorRetried clientW envMarshalFail reqPostCT 3 rfl).1 () "bad" rfl rfl
  exact ⟨rfl, h.1, h.2.2.2⟩

/-- C9: `Do` returns exactly one of a response or an error (`isSome` of
the response always equals `isNone` of the error), and whenever the
transport succeeds at some attempt `s` within the retry budget (all
earlier attempts failing at transport level, the request building
successfully), `Do` returns that attempt's response immediately — no
further attempts, regardless of status code. -/
theorem C9_responseXorError {β : Type} (c : Client β) (env : Env β) (req : Request β) :
    ((c.Do env req).response.isSome = (c.Do env req).error.isNone) ∧
    (∀ (s : Nat) (raw : RawResponse) (body : String) (e : Nat → String),
      (s : Int) ≤ c.retryConfig.MaxRetries →
      (∀ k, k < s → ∀ r, env.transport k r = Except.error (e k)) →
      (∀ r, env.transport s r = Except.ok raw) →
      raw.bodyRead = Except.ok body →
      (∀ b, req.Body = some b → ∃ enc, env.marshal b = Except.ok enc) →
      env.createRequest req.Method (c.baseURL ++ req.URL) = Except.ok () →
      (c.Do env req).response = some ⟨raw.statusCode, raw.headers, body⟩ ∧
      (c.Do env req).error = none ∧
      (c.Do env req).transportCalls = s + 1) := by
  constructor
  · unfold Client.Do
    exact doLoop_xor c env req _ 0 0 none []
  · intro s raw body e hs hfailing hsucc hread hmarshal hcreate
    have hfail' : ∀ k, k < s →
        c.doRequest env req k = ⟨none, some (.wrapTransport (.errorString (e k))), 1⟩ :=
      fun k hk => doRequest_transportFail c env req (e k) k hmarshal hcreate (hfailing k hk)
    have hsucc' : c.doRequest env req s = ⟨some ⟨raw.statusCode, raw.headers, body⟩, none, 1⟩ :=
      doRequest_success c env req raw body s hmarshal hcreate hsucc hread
    unfold Client.Do
    exact doLoop_firstSuccess c env req s ⟨raw.statusCode, raw.headers, body⟩
      (fun k => .wrapTransport (.errorString (e k))) hfail' hsucc' _ 0 0 none []
      (by omega) (by omega)

/-- Witness for C9: a transport succeeding at the first attempt with a
200 response. -/
theorem C9_witness :
    ((clientW.Do env200 reqGet).response.isSome = (clientW.Do env200 reqGet).error.isNone) ∧
    (clientW.Do env200 reqGet).response = some ⟨200, [], "payload"⟩ ∧
    (clientW.Do env200 reqGet).transportCalls = 0 + 1 := by
  have h := C9_responseXorError clientW env200 reqGet
  have h2 := h.2 0 ⟨200, [], Except.ok "payload"⟩ "payload" (fun _ => "")
    (by decide) (fun k hk => absurd hk (by omega)) (fun r => rfl) rfl
    (fun b hb => by simp [reqGet] at hb) rfl
  exact ⟨h.1, h2.1, h2.2.2⟩

/-- C3 counterexample: the claim says the delay waited after failed
attempt `i` equals `d × b^i`.  With `Delay = 1` ns and `Backoff = 1.5`
(and `MaxRetries = 2`, a permanently failing transport), the delay slept
after attempt 1 is `time.Duration(1 * 1.5) = 1` ns, but
`d × b^1 = 3/2 ≠ 1`: the cast to `time.Duration` truncates the product
to whole nanoseconds. -/
theorem C3_cex :
    (clientB15.Do envFail reqGet).sleeps = [1, 1] ∧
    (1 : ℚ) * (3 / 2 : ℚ) ^ (1 : ℕ) ≠ (((1 : Int) : ℚ)) := by
  constructor
  · with_unfolding_all rfl
  · norm_num

/-- C3 (amended): the delay computed after failed attempt `i` is the
truncation toward zero (`time.Duration` cast) of `Delay × Backoff^i`; it
equals `Delay × Backoff^i` exactly whenever that product is a whole
number of nanoseconds; and for `Delay ≥ 0`, `Backoff ≥ 1` the delays are
monotonically non-decreasing in `i`. -/
theorem C3_delayFormula (rc : RetryConfig) (i : ℕ) :
    computeDelay rc i = truncQ ((rc.Delay : ℚ) * rc.Backoff ^ i) ∧
    (∀ z : ℤ, (rc.Delay : ℚ) * rc.Backoff ^ i = (z : ℚ) →
      ((computeDelay rc i : ℤ) : ℚ) = (rc.Delay : ℚ) * rc.Backoff ^ i) ∧
    (0 ≤ rc.Delay → 1 ≤ rc.Backoff → computeDelay rc i ≤ computeDelay rc (i + 1)) := by
  refine ⟨computeDelay_eq rc i, ?_, computeDelay_mono rc i⟩
  intro z hz
  rw [computeDelay_eq, hz, truncQ_intCast]

/-- Witness for C3 (amended) at the `NewClient` defaults
(`Delay = 10^9` ns, `Backoff = 2`), attempt index 0. -/
theorem C3_witness :
    (0 : Int) ≤ (1000000000 : Int) ∧ (1 : ℚ) ≤ (2 : ℚ) ∧
    computeDelay { MaxRetries := 3, Delay := 1000000000, Backoff := 2 } 0 ≤
      computeDelay { MaxRetries := 3, Delay := 1000000000, Backoff := 2 } 1 ∧
    (((computeDelay { MaxRetries := 3, Delay := 1000000000, Backoff := 2 } 0 : ℤ) : ℚ) =
      ((1000000000 : Int) : ℚ) * (2 : ℚ) ^ (0 : ℕ)) :=
  ⟨by norm_num, by norm_num,
   (C3_delayFormula { MaxRetries := 3, Delay := 1000000000, Backoff := 2 } 0).2.2
     (by norm_num) (by norm_num),
   (C3_delayFormula { MaxRetries := 3, Delay := 1000000000, Backoff := 2 } 0).2.1
     1000000000 (by norm_num)⟩

/-- C5 counterexample: the claim says a caller-supplied `Content-Type`
is preserved.  For a request with a body whose headers carry
`Content-Type: text/xml`, the outgoing header is `application/json`:
the automatic `Set` runs after the header merge and overrides the
caller's value. -/
theorem C5_cex :
    Header.Get (outgoingHeaders clientW reqPostCT) "Content-Type" = some "application/json" ∧
    lookupC reqPostCT.Headers "Content-Type" = some "text/xml" ∧
    Header.Get (outgoingHeaders clientW reqPostCT) "Content-Type" ≠ some "text/xml" := by
  refine ⟨by decide, by decide, by decide⟩

/-- C5 (amended): whenever a body is present the outgoing `Content-Type`
is `application/json` — set automatically, overriding any caller-supplied
value (default or request header); when no body is present no automatic
`Content-Type` is set and the outgoing headers are exactly the merge. -/
theorem C5_contentTypeForced {β : Type} (c : Client β) (req : Request β) :
    (req.Body.isSome = true →
      Header.Get (outgoingHeaders c req) "Content-Type" = some "application/json") ∧
    (req.Body = none →
      outgoingHeaders c req = mergeHeaders c.defaultHeaders req.Headers) := by
  constructor
  · intro hb
    unfold outgoingHeaders
    rw [if_pos hb, Header.Get_Set, if_pos rfl]
  · intro hb
    unfold outgoingHeaders
    simp [hb]

/-- Witness for C5 (amended): body present, caller `Content-Type`
overridden; and with no body the caller value passes through. -/
theorem C5_witness :
    reqPostCT.Body.isSome = true ∧
    Header.Get (outgoingHeaders clientW reqPostCT) "Content-Type" = some "application/json" ∧
    (reqGetCT.Body = none ∧
      outgoingHeaders clientW reqGetCT = mergeHeaders clientW.defaultHeaders reqGetCT.Headers) :=
  ⟨rfl, (C5_contentTypeForced clientW reqPostCT).1 rfl,
   rfl, (C5_contentTypeForced clientW reqGetCT).2 rfl⟩

/-- C7 counterexample: the claim says the outgoing headers are exactly
the merge of default and request headers for every request.  For a
request with a body and a caller `Content-Type: text/plain`, the merge
maps `Content-Type` to `text/plain` but the outgoing header carries
`application/json`. -/
theorem C7_cex :
    Header.Get (outgoingHeaders clientAcc reqPostCT2) "Content-Type" = some "application/json" ∧
    Header.Get (mergeHeaders clientAcc.defaultHeaders reqPostCT2.Headers) "Content-Type" =
      some "text/plain" ∧
    Header.Get (outgoingHeaders clientAcc reqPostCT2) "Content-Type" ≠
      Header.Get (mergeHeaders clientAcc.defaultHeaders reqPostCT2.Headers) "Content-Type" := by
  refine ⟨by decide, by decide, by decide⟩

/-- C7 (amended): for every key — except `Content-Type` when a body is
present, which the automatic `Set` overrides — the outgoing header value
is the merge of default and request headers: a key set in the request
headers wins over the defaults, and a key set in only one of the two maps
passes its value through unchanged (headers assumed free of two raw keys
canonicalising to one header key, since Go's map iteration order is
unspecified). -/
theorem C7_headerMerge {β : Type} (c : Client β) (req : Request β) (k : String)
    (hd : nodupC c.defaultHeaders) (hr : nodupC req.Headers)
    (hk : req.Body = none ∨ canonicalMIMEHeaderKey k ≠ "Content-Type") :
    Header.Get (outgoingHeaders c req) k =
      (match lookupC req.Headers (canonicalMIMEHeaderKey k) with
       | some v => some v
       | none => lookupC c.defaultHeaders (canonicalMIMEHeaderKey k)) := by
  rcases hk with hb | hck
  · rw [(C5_contentTypeForced c req).2 hb]
    exact Get_mergeHeaders _ _ k hd hr
  · unfold outgoingHeaders
    cases hb : req.Body.isSome with
    | false =>
      dsimp only
      rw [if_neg (by simp)]
      exact Get_mergeHeaders _ _ k hd hr
    | true =>
      dsimp only
      rw [if_pos rfl, Header.Get_Set,
        if_neg (by rw [show canonicalMIMEHeaderKey "Content-Type" = "Content-Type" from rfl]; exact hck)]
      exact Get_mergeHeaders _ _ k hd hr

/-- Witness for C7 (amended): `Accept` comes from the defaults,
`Content-Type` from the request headers of a body-less request. -/
theorem C7_witness :
    nodupC clientAcc.defaultHeaders ∧ nodupC reqGetCT.Headers ∧
    Header.Get (outgoingHeaders clientAcc reqGetCT) "Content-Type" = some "text/plain" ∧
    Header.Get (outgoingHeaders clientAcc reqGetCT) "Accept" = some "x" := by
  refine ⟨by decide, by decide, ?_, ?_⟩
  · rw [C7_headerMerge clientAcc reqGetCT "Content-Type" (by decide) (by decide) (Or.inl rfl)]
    decide
  · rw [C7_headerMerge clientAcc reqGetCT "Accept" (by decide) (by decide) (Or.inl rfl)]
    decide

/-- C6: whenever the underlying `Do` succeeds (a response and no error),
the JSON layer returns the `"HTTP error: %d"` error for status ≥ 400
without invoking `json.Unmarshal`, and for status < 400 it invokes
`json.Unmarshal` on the response body, storing the decoded value in the
caller's destination (and returning the decode error, if any); the
verb-shaped helpers delegate to `Client.JSON`. -/
theorem C6_jsonStatusGate {β δ : Type} (c : Client β) (env : Env β)
    (um : String → Except String δ) (req : Request β) (resp : Response)
    (hresp : (c.Do env req).response = some resp)
    (herr : (c.Do env req).error = none) :
    ((400 ≤ resp.StatusCode →
      (c.JSON env um req).error = some (.httpError resp.StatusCode) ∧
      (c.JSON env um req).decodeCalled = false ∧
      (c.JSON env um req).decoded = none) ∧
     (resp.StatusCode < 400 →
      (c.JSON env um req).decodeCalled = true ∧
      (c.JSON env um req).decoded = (um resp.Body).toOption ∧
      ((c.JSON env um req).error = none ↔ ∃ v, um resp.Body = Except.ok v))) ∧
    (∀ url hdrs, c.GetJSON env um url hdrs =
        c.JSON env um ⟨"GET", url, hdrs, none, []⟩) ∧
    (∀ url b hdrs, c.PostJSON env um url b hdrs =
        c.JSON env um ⟨"POST", url, hdrs, some b, []⟩) ∧
    (∀ url b hdrs, c.PutJSON env um url b hdrs =
        c.JSON env um ⟨"PUT", url, hdrs, some b, []⟩) ∧
    (∀ url hdrs, c.DeleteJSON env um url hdrs =
        c.JSON env um ⟨"DELETE", url, hdrs, none, []⟩) := by
  refine ⟨⟨?_, ?_⟩, fun url hdrs => rfl, fun url b hdrs => rfl,
    fun url b hdrs => rfl, fun url hdrs => rfl⟩
  · intro h400
    simp only [Client.JSON, herr, hresp]
    rw [if_pos h400]
    exact ⟨rfl, rfl, rfl⟩
  · intro hlt
    simp only [Client.JSON, herr, hresp]
    rw [if_neg (not_le.mpr hlt)]
    cases hu : um resp.Body with
    | error msg => exact ⟨rfl, by simp [Except.toOption, hu], by simp [hu]⟩
    | ok v => exact ⟨rfl, by simp [Except.toOption, hu], by simp [hu]⟩

/-- Witness for C6: a working transport returning a 404 — the JSON layer
surfaces `HTTP error: 404` and never decodes. -/
theorem C6_witness :
    (clientW.Do env404 reqGet).response = some ⟨404, [], "nf"⟩ ∧
    (clientW.JSON env404 (fun s => Except.ok s) reqGet).error = some (.httpError 404) ∧
    (clientW.JSON env404 (fun s => Except.ok s) reqGet).decodeCalled = false := by
  have h := C6_jsonStatusGate clientW env404 (fun s => Except.ok s) reqGet ⟨404, [], "nf"⟩
    rfl rfl
  have h400 := h.1.1 (by norm_num)
  exact ⟨rfl, h400.1, h400.2.1⟩

/-- C10: `WithContext` performs at most one transport invocation, never
sleeps a backoff delay, and never reads the retry or circuit-breaker
configuration: its outcome is invariant under arbitrary replacement of
both config fields. -/
theorem C10_withContextSingleShot {β : Type} (c : Client β) (env : Env β) (req : Request β) :
    (c.WithContext env req).transportCalls ≤ 1 ∧
    (c.WithContext env req).sleeps = [] ∧
    (∀ (rc : RetryConfig) (cb : CircuitBreaker),
      ({ c with retryConfig := rc, circuitBreaker := cb } : Client β).WithContext env req =
        c.WithContext env req) := by
  refine ⟨?_, ?_, fun rc cb => rfl⟩ <;>
  · unfold Client.WithContext
    dsimp only
    repeat' split
    all_goals first | rfl | (dsimp only; omega)

/-- The fill loop of `NewRateLimiter` leaves exactly `burst` tokens in
the channel. -/
theorem NewRateLimiter_eq (burst : Nat) : NewRateLimiter burst = burst := by
  unfold NewRateLimiter
  induction burst with
  | zero => rfl
  | succ n ih =>
    rw [List.range_succ, List.foldl_append, ih]
    rfl

/-- C8: the rate-limiter token pool starts full with exactly `B` tokens,
and in every state reachable under any interleaving of `Wait`
acquisitions and scheduled replenishments the token count stays between
0 and the burst capacity `B`. -/
theorem C8_tokenPoolBounds (B n : Nat) (h : RLReachable B n) :
    0 ≤ n ∧ n ≤ B ∧ NewRateLimiter B = B := by
  refine ⟨Nat.zero_le n, ?_, NewRateLimiter_eq B⟩
  induction h with
  | init => rw [NewRateLimiter_eq]
  | step hr hs ih =>
    cases hs with
    | acquire m => omega
    | replenish m hm => omega

/-- Witness for C8: with burst 2, the state after one acquisition is
reachable and within bounds. -/
theorem C8_witness :
    RLReachable 2 1 ∧ 1 ≤ 2 ∧ NewRateLimiter 2 = 2 := by
  have hreach : RLReachable 2 1 :=
    RLReachable.step RLReachable.init (RLStep.acquire 1)
  have h := C8_tokenPoolBounds 2 1 hreach
  exact ⟨hreach, h.2.1, h.2.2⟩

end Stoner
